import Mathlib

/-!
Shallow embedding of the xiaohongshu-worker browser-session core:
the browser pool (src/core/browser_pool.py), the login status check and
publish pipeline of the session engine (src/core/browser.py), and the
login-status polling endpoint (src/main.py).

Machine-level aspects (actual process handles, real clocks, the DOM) are
modelled as explicit data supplied by the environment; the control flow of
each embedded function follows the Python source line by line.
-/

/-- `needle in hay` on Python strings: substring containment. -/
def strContains (hay needle : String) : Bool :=
  hay.data.tails.any (fun t => needle.data.isPrefixOf t)

/-- `(s ++ t).data = s.data ++ t.data`. -/
theorem strData_append (s t : String) : (s ++ t).data = s.data ++ t.data := rfl

/-- Strings with equal character data are equal. -/
theorem strData_ext {s t : String} (h : s.data = t.data) : s = t := by
  cases s; cases t; exact congrArg String.mk h

/-- Left cancellation for string append. -/
theorem strAppend_left_cancel {a b c : String} (h : a ++ b = a ++ c) : b = c := by
  apply strData_ext
  have h' : a.data ++ b.data = a.data ++ c.data := by
    simpa [strData_append] using congrArg String.data h
  exact List.append_cancel_left h'

/-! ## Browser pool (src/core/browser_pool.py)

An engine (`BrowserManager`) is identified by the order of its construction
(`id` stands for the identity of the Python object); `user_id` and
`user_data_dir` are the attributes the pool rebinds on warm reuse.
-/

/-- The attributes of a `BrowserManager` relevant to pool bookkeeping.
`id` models Python object identity (construction order). -/
structure BrowserManager where
  id : Nat
  user_id : String
  user_data_dir : String
deriving DecidableEq, Repr

/-- `os.path.abspath` relative to the working directory `cwd`. -/
def abspath (cwd p : String) : String := cwd ++ "/" ++ p

/-- `BrowserManager.__init__`: `user_data_dir = os.path.abspath(f"data/users/{user_id}")`. -/
def initUserDataDir (cwd uid : String) : String := abspath cwd ("data/users/" ++ uid)

/-- The directory the pool re-points a warm engine to on rebind:
`manager.user_data_dir = f"./user_data/{user_id}"`. -/
def poolReboundDir (uid : String) : String := "./user_data/" ++ uid

/-- Pool state: `available` is the warm list of `(manager, last_used_time)` pairs,
`in_use` the `user_id -> manager` dict (association list with unique keys),
`nextId` the identity supply for newly constructed managers. -/
structure BrowserPool where
  max_size : Nat
  available : List (BrowserManager × Nat)
  in_use : List (String × BrowserManager)
  nextId : Nat
deriving DecidableEq, Repr

/-- `BrowserPool.__init__(max_size)`. -/
def mkBrowserPool (max_size : Nat) : BrowserPool :=
  { max_size := max_size, available := [], in_use := [], nextId := 0 }

/-- Python dict lookup `d.get(k)` on an association list. -/
def lookupKey {α : Type} (k : String) : List (String × α) → Option α
  | [] => none
  | (k', v) :: rest => if k' = k then some v else lookupKey k rest

/-- Python dict removal `d.pop(k)` on an association list (keys are unique,
so removing the first binding removes the binding). -/
def removeKey {α : Type} (k : String) : List (String × α) → List (String × α)
  | [] => []
  | (k', v) :: rest => if k' = k then rest else (k', v) :: removeKey k rest

/-- Outcome of `BrowserPool.acquire`: a manager, or the
`"Browser pool exhausted"` exception. -/
inductive AcquireResult where
  | ok (m : BrowserManager)
  | exhausted
deriving DecidableEq, Repr

/-- `BrowserPool.acquire(user_id)` (the body runs under `self.lock`, so calls
are serialized; we model one call as one atomic state transition):
return the checked-out engine if the user has one; else pop the head of the
available list and rebind its `user_id` and `user_data_dir`; else construct a
new engine when under `max_size`; else fail exhausted. -/
def BrowserPool.acquire (cwd uid : String) (s : BrowserPool) :
    AcquireResult × BrowserPool :=
  match lookupKey uid s.in_use with
  | some m => (.ok m, s)
  | none =>
    match s.available with
    | (m, _) :: rest =>
      let m' : BrowserManager :=
        { m with user_id := uid, user_data_dir := poolReboundDir uid }
      (.ok m', { s with available := rest, in_use := (uid, m') :: s.in_use })
    | [] =>
      if s.in_use.length < s.max_size then
        let m : BrowserManager :=
          { id := s.nextId, user_id := uid, user_data_dir := initUserDataDir cwd uid }
        (.ok m, { s with in_use := (uid, m) :: s.in_use, nextId := s.nextId + 1 })
      else
        (.exhausted, s)

/-- `BrowserPool.release(user_id, keep_alive)`: if the user has no checked-out
engine, return unchanged; else pop it from `in_use` and either append it to
the available list (when `keep_alive` and the available list is under
`max_size`) or close it (the engine is dropped). -/
def BrowserPool.release (uid : String) (keep_alive : Bool) (now : Nat)
    (s : BrowserPool) : BrowserPool :=
  match lookupKey uid s.in_use with
  | none => s
  | some m =>
    let in_use' := removeKey uid s.in_use
    if keep_alive ∧ s.available.length < s.max_size then
      { s with in_use := in_use', available := s.available ++ [(m, now)] }
    else
      { s with in_use := in_use' }

/-- `BrowserPool.cleanup_idle(idle_timeout)`: keep only the available engines
whose idle time does not exceed the timeout; the rest are closed. -/
def BrowserPool.cleanup_idle (idle_timeout now : Nat) (s : BrowserPool) :
    BrowserPool :=
  { s with available := s.available.filter (fun p => !(decide (idle_timeout < now - p.2))) }

/-- `BrowserPool.close_all()`: close every engine and clear both lists. -/
def BrowserPool.close_all (s : BrowserPool) : BrowserPool :=
  { s with available := [], in_use := [] }

/-- One pool operation, for reasoning about reachable pool states. -/
inductive PoolOp where
  | acq (uid : String)
  | rel (uid : String) (keep_alive : Bool) (now : Nat)
  | cleanup (idle_timeout now : Nat)
  | closeAll
deriving DecidableEq, Repr

/-- Apply one operation to the pool state. -/
def poolStep (cwd : String) (s : BrowserPool) : PoolOp → BrowserPool
  | .acq uid => (BrowserPool.acquire cwd uid s).2
  | .rel uid k now => BrowserPool.release uid k now s
  | .cleanup t now => BrowserPool.cleanup_idle t now s
  | .closeAll => BrowserPool.close_all s

/-- Run a sequence of pool operations from a state. -/
def runPoolOps (cwd : String) (s : BrowserPool) : List PoolOp → BrowserPool
  | [] => s
  | op :: rest => runPoolOps cwd (poolStep cwd s op) rest

/-- Sequentially acquire a list of user ids, collecting the results
(the pool lock serializes concurrent `acquire` calls). -/
def acquireSeq (cwd : String) (uids : List String) (s : BrowserPool) :
    List AcquireResult × BrowserPool :=
  match uids with
  | [] => ([], s)
  | u :: rest =>
    let r := BrowserPool.acquire cwd u s
    let rs := acquireSeq cwd rest r.2
    (r.1 :: rs.1, rs.2)

/-- The engine ids of the successful results. -/
def resultIds : List AcquireResult → List Nat
  | [] => []
  | .ok m :: rest => m.id :: resultIds rest
  | .exhausted :: rest => resultIds rest

example :
    (BrowserPool.acquire "/app" "u1" (mkBrowserPool 3)).1 =
      .ok ⟨0, "u1", "/app/data/users/u1"⟩ := by decide

example :
    (BrowserPool.acquire "/app" "u2"
      (BrowserPool.acquire "/app" "u1" (mkBrowserPool 3)).2).1 =
      .ok ⟨1, "u2", "/app/data/users/u2"⟩ := by decide

/-! ## Login status check (src/core/browser.py, `check_login_status`)

The live page is modelled by the observations the function makes of it:
the current URL, whether the creator-page element is present, the exported
cookie dict, and what a navigation to the creator home would observe.
-/

/-- Observations `check_login_status` makes of the live page. -/
structure Page where
  /-- `self.page.url` at the time of the check. -/
  url : String
  /-- whether `page.ele('text:发布笔记', timeout=1)` finds the element. -/
  hasPublishNoteEle : Bool
  /-- `page.cookies(as_dict=True)` as a name/value association list. -/
  cookies : List (String × String)
  /-- whether `page.get("https://creator.xiaohongshu.com/creator/home")` raises. -/
  navRaises : Bool
  /-- `self.page.url` observed after that navigation (redirects included). -/
  urlAfterHomeNav : String
deriving DecidableEq, Repr

/-- `name in cookies` for the cookie dict. -/
def hasCookie (p : Page) (name : String) : Bool :=
  p.cookies.any (fun c => c.1 = name)

/-- `BrowserManager.check_login_status`: no page means not logged in; then
(1) URL fast path, (2) creator-element fast path, (3) `web_session` cookie
plus a confirmatory navigation to the creator home that must land on a
`creator/home` URL. Any exception yields `False`. -/
def check_login_status (page? : Option Page) : Bool :=
  match page? with
  | none => false
  | some p =>
    if strContains p.url "creator/home" then true
    else if p.hasPublishNoteEle then true
    else if hasCookie p "web_session" then
      if p.navRaises then false
      else if strContains p.urlAfterHomeNav "creator/home" then true
      else false
    else false

/-- `BrowserManager.get_cookies`: the live cookie jar, `None` without a page. -/
def get_cookies (page? : Option Page) : Option (List (String × String)) :=
  match page? with
  | none => none
  | some p => some p.cookies

/-! ## Login status polling endpoint (src/main.py, `check_login_status`)

`login_sessions` is the module-level `user_id -> BrowserManager` dict; a
manager is modelled by its page observations. The endpoint returns 404 when
the user has no session, else a JSON body whose `status` field is exactly
the string the code writes (`"success"` or `"waiting"`).
-/

/-- Response of the polling endpoint: HTTP 404, or a JSON body with its
`status` string and optional exported cookies. -/
inductive PollResp where
  | notFound
  | ok (status : String) (cookies : Option (List (String × String)))
deriving DecidableEq, Repr

/-- The `status` field the caller observes (`"not_found"` for HTTP 404). -/
def PollResp.statusOf : PollResp → String
  | .notFound => "not_found"
  | .ok st _ => st

/-- `GET /api/v1/login/status/{user_id}`: 404 without a session; else run
`check_login_status`; on success export cookies, close and drop the session
and answer `"success"` (cookies included only when the exported list is
non-empty, per `if cookies:`); otherwise answer `"waiting"`. -/
def check_login_status_endpoint (sessions : List (String × Option Page))
    (uid : String) : PollResp × List (String × Option Page) :=
  match lookupKey uid sessions with
  | none => (.notFound, sessions)
  | some page? =>
    if check_login_status page? then
      match get_cookies page? with
      | some cs =>
        if cs.isEmpty then (.ok "success" none, removeKey uid sessions)
        else (.ok "success" (some cs), removeKey uid sessions)
      | none => (.ok "success" none, removeKey uid sessions)
    else
      (.ok "waiting" none, sessions)

/-! ## Publish pipeline (src/core/browser.py, `publish_content`)

The pipeline body is a sequence of driver calls whose outcomes are supplied
by the environment; the embedded control flow mirrors the `raise` sites of
the `try` block, the `except` branch that turns the exception into
`(False, message)`, and the `finally` branch that closes the browser and
removes every task file from disk. The local filesystem is the set of
existing paths, as a duplicate-free list.
-/

/-- Environment of one `publish_content` run: which driver steps succeed. -/
structure PublishEnv where
  /-- `start_browser` (or the initial navigation / cookie injection) raises. -/
  startRaises : Bool
  /-- `page.url` after cookie injection and refresh (`if "login" in page.url`). -/
  urlAfterInject : String
  /-- `page.ele('tag:input@type=file', timeout=10)` finds the upload input. -/
  uploadInputFound : Bool
  /-- `page.ele('text:发布', index=1)` finds the publish button. -/
  publishBtnFound : Bool
deriving DecidableEq, Repr

/-- The `try` block of `publish_content`: each `raise` becomes an error with
the message the code raises (tab switching, field filling and upload waits
have no failing branch that escapes the block). -/
def publish_try (env : PublishEnv) : Except String Unit :=
  if env.startRaises then .error "browser start failed"
  else if strContains env.urlAfterInject "login" then
    .error "Cookie expired or not logged in"
  else if !env.uploadInputFound then .error "Upload input not found"
  else if !env.publishBtnFound then .error "Publish button not found"
  else .ok ()

/-- `os.remove(f)`: the path no longer exists afterwards. -/
def osRemove (f : String) (fs : List String) : List String :=
  fs.filter (fun g => !(decide (g = f)))

/-- The `finally` loop: `for f in files: if os.path.exists(f): os.remove(f)`. -/
def deleteTaskFiles (files fs : List String) : List String :=
  files.foldl (fun acc f => if f ∈ acc then osRemove f acc else acc) fs

/-- `BrowserManager.publish_content(cookies, publish_type, files, ...)`,
returning the `(ok, message)` pair and the filesystem after the `finally`
branch ran. The success path returns `(True, "Publish successful")`; the
`except` branch returns `(False, str(e))`; both pass through `finally`. -/
def publish_content (env : PublishEnv) (files fs : List String) :
    (Bool × String) × List String :=
  let result : Bool × String :=
    match publish_try env with
    | .ok _ => (true, "Publish successful")
    | .error msg => (false, msg)
  (result, deleteTaskFiles files fs)

example :
    publish_content ⟨false, "https://creator.xiaohongshu.com/publish/publish",
      true, true⟩ ["/tmp/a.mp4"] ["/tmp/a.mp4", "/tmp/b"] =
    ((true, "Publish successful"), ["/tmp/b"]) := by decide

example :
    publish_content ⟨false, "https://creator.xiaohongshu.com/login", true, true⟩
      ["/tmp/a.mp4"] ["/tmp/a.mp4"] =
    ((false, "Cookie expired or not logged in"), []) := by decide

/-! ## QR capture (src/core/browser.py, `get_login_qrcode`)

The DOM is modelled by the element lists each extraction strategy queries.
One source detail matters for control flow: when the quick QR check fails,
the mode-switch block reads the local `qr_found` before any assignment
(first at `if not qr_found:`; every assignment `qr_found = True` sits below
such a read), so that block always raises `NameError`, which the outer
`except` turns into the emergency screenshot result.
-/

/-- An `img` element as strategy 1 sees it: its `src` attribute and size. -/
structure QrImg where
  src : Option String
  w : Nat
  h : Nat
deriving DecidableEq, Repr

/-- A candidate element (canvas / div / img) with its size and the base64
screenshot `get_screenshot(as_base64=True)` would produce for it. -/
structure QrEl where
  w : Nat
  h : Nat
  shot : String
deriving DecidableEq, Repr

/-- `is_valid_qr`: both dimensions strictly above 50 pixels. -/
def is_valid_qr (w h : Nat) : Bool :=
  decide (50 < w) && decide (50 < h)

/-- Characters after the first occurrence of `needle` (`none` if absent). -/
def charsAfterMarker (needle : List Char) : List Char → Option (List Char)
  | [] => none
  | c :: rest =>
    if needle.isPrefixOf (c :: rest) then some (List.drop needle.length (c :: rest))
    else charsAfterMarker needle rest

/-- Characters up to (excluding) the next occurrence of `needle`. -/
def charsUpToMarker (needle : List Char) : List Char → List Char
  | [] => []
  | c :: rest =>
    if needle.isPrefixOf (c :: rest) then []
    else c :: charsUpToMarker needle rest

/-- Python `s.split(needle)[1]`: the segment between the first and second
occurrences of `needle` (`none` when `needle` is absent, the `IndexError`
case). -/
def splitSecondSeg (needle s : String) : Option String :=
  (charsAfterMarker needle.data s.data).map (fun cs => ⟨charsUpToMarker needle.data cs⟩)

/-- Strategy 1: first `img` whose `src` holds a base64 data URL and whose
size is valid; its payload after `base64,` is returned directly. A failing
`split` (`IndexError`) moves on to the next image. -/
def strategy1_base64_img : List QrImg → Option String
  | [] => none
  | i :: rest =>
    match i.src with
    | none => strategy1_base64_img rest
    | some s =>
      if strContains s "data:image" && strContains s "base64" then
        if is_valid_qr i.w i.h then
          match splitSecondSeg "base64," s with
          | some payload => some payload
          | none => strategy1_base64_img rest
        else strategy1_base64_img rest
      else strategy1_base64_img rest

/-- First size-validated element of a candidate list. -/
def firstValid (l : List QrEl) : Option QrEl :=
  l.find? (fun e => is_valid_qr e.w e.h)

/-- What `get_login_qrcode` observes of the page. -/
structure QrEnv where
  /-- `page.url` after start / navigation. -/
  url : String
  /-- the quick `page.ele('tag:canvas')` / `.qrcode-img` presence check. -/
  qrPresentQuickCheck : Bool
  /-- some driver call raises for environmental reasons. -/
  driverRaises : Bool
  /-- `page.eles('tag:img')` for strategy 1. -/
  imgs : List QrImg
  /-- `page.eles('tag:canvas')` for strategy 2. -/
  canvases : List QrEl
  /-- `div[class*="qrcode"], div[class*="qr-"]` candidates. -/
  qrClassDivs : List QrEl
  /-- `img[alt*="qr"], img[src*="qrcode"], img[alt*="scan"]` candidates. -/
  qrAttrImgs : List QrEl
  /-- canvas/img candidates near the scan-hint text (`none`: text absent). -/
  scanTextCands : Option (List QrEl)
  /-- the login box (by class, or three parents above the scan anchor). -/
  loginBox : Option QrEl
  /-- `page.get_screenshot(as_base64=True)` of the full viewport. -/
  fullShot : String
  /-- the screenshot taken in the `except` branch (`none`: page dead). -/
  emergencyShot : Option String
  /-- `str(e)` for the final error result. -/
  errMsg : String
deriving DecidableEq, Repr

/-- Result dict of `get_login_qrcode`: its `status`, `qr_image`, `note` and
`msg` entries (absent keys are `none`). -/
structure QrResult where
  status : String
  qr_image : Option String
  note : Option String
  msg : Option String
deriving DecidableEq, Repr

/-- The function-level `except` branch: emergency screenshot of whatever is
on screen, tagged `note = "emergency_fallback"`, or an error result. -/
def qrEmergency (env : QrEnv) : QrResult :=
  match env.emergencyShot with
  | some s => ⟨"waiting_scan", some s, some "emergency_fallback", none⟩
  | none => ⟨"error", none, none, some env.errMsg⟩

/-- Strategies 2-4: the successive `if not qr_box:` probes. -/
def qr_box_detect (env : QrEnv) : Option QrEl :=
  let b1 := firstValid env.canvases
  let b2 := match b1 with
    | some e => some e
    | none => firstValid env.qrClassDivs
  let b3 := match b2 with
    | some e => some e
    | none => firstValid env.qrAttrImgs
  match b3 with
  | some e => some e
  | none =>
    match env.scanTextCands with
    | some cands => firstValid cands
    | none => none

/-- The screenshot the no-QR fallback returns: the login box when one was
located, the full viewport otherwise. -/
def fallbackShot (env : QrEnv) : String :=
  match env.loginBox with
  | some box => box.shot
  | none => env.fullShot

/-- `BrowserManager.get_login_qrcode`: logged-in short-circuit, the
mode-switch block (which always raises `NameError` when entered, see above),
strategy 1, the `qr_box` strategies, then the login-box / full-page
fallback — whose result carries no `note` and the same `status` as a normal
capture. -/
def get_login_qrcode (env : QrEnv) : QrResult :=
  if env.driverRaises then qrEmergency env
  else if strContains env.url "creator/home" then
    ⟨"logged_in", none, none, some "Already logged in"⟩
  else if !env.qrPresentQuickCheck then
    qrEmergency env
  else
    match strategy1_base64_img env.imgs with
    | some payload => ⟨"waiting_scan", some payload, none, none⟩
    | none =>
      match qr_box_detect env with
      | some el => ⟨"waiting_scan", some el.shot, none, none⟩
      | none =>
        match env.loginBox with
        | some box => ⟨"waiting_scan", some box.shot, none, none⟩
        | none => ⟨"waiting_scan", some env.fullShot, none, none⟩

/-! ## Helper lemmas on the association-list dict operations -/

theorem mem_removeKey {α : Type} {k : String} {l : List (String × α)}
    {p : String × α} (h : p ∈ removeKey k l) : p ∈ l := by
  induction l with
  | nil => simp [removeKey] at h
  | cons hd tl ih =>
    obtain ⟨k', v⟩ := hd
    by_cases hk : k' = k
    · simp [removeKey, hk] at h
      exact List.mem_cons_of_mem _ h
    · simp [removeKey, hk] at h
      rcases h with h | h
      · simp [h]
      · exact List.mem_cons_of_mem _ (ih h)

theorem removeKey_length_of_lookup {α : Type} {k : String}
    {l : List (String × α)} {m : α} (h : lookupKey k l = some m) :
    (removeKey k l).length + 1 = l.length := by
  induction l with
  | nil => simp [lookupKey] at h
  | cons hd tl ih =>
    obtain ⟨k', v⟩ := hd
    by_cases hk : k' = k
    · simp [removeKey, hk]
    · simp [lookupKey, hk] at h
      simp [removeKey, hk, ih h]

theorem lookupKey_removeKey_self {α : Type} {k : String}
    {l : List (String × α)} (hnd : (l.map Prod.fst).Nodup) :
    lookupKey k (removeKey k l) = none := by
  induction l with
  | nil => simp [removeKey, lookupKey]
  | cons hd tl ih =>
    obtain ⟨k', v⟩ := hd
    simp only [List.map_cons, List.nodup_cons] at hnd
    by_cases hk : k' = k
    · subst hk
      simp only [removeKey, if_pos rfl]
      -- k is not a key of tl, so the lookup misses
      clear ih
      induction tl with
      | nil => simp [lookupKey]
      | cons hd2 tl2 ih2 =>
        obtain ⟨k2, v2⟩ := hd2
        simp only [List.map_cons, List.mem_cons] at hnd
        have hk2 : k2 ≠ k' := fun h => hnd.1 (Or.inl h.symm)
        simp only [lookupKey, if_neg hk2]
        exact ih2 ⟨fun h => hnd.1 (Or.inr h), hnd.2.of_cons⟩
    · simp only [removeKey, if_neg hk, lookupKey]
      exact ih hnd.2

/-! ## C7: acquire for an already-checked-out user -/

/-- C7: if `acquire(u)` has returned engine `E` and `release(u)` has not been
called (`u` is a key of `in_use`), a second `acquire(u)` returns the same
engine `E` and leaves the pool unchanged: no second engine is created. -/
theorem acquire_returns_existing (cwd uid : String) (s : BrowserPool)
    (m : BrowserManager) (h : lookupKey uid s.in_use = some m) :
    BrowserPool.acquire cwd uid s = (.ok m, s) := by
  unfold BrowserPool.acquire
  rw [h]

theorem acquire_returns_existing_witness :
    BrowserPool.acquire "/app" "u"
      ⟨3, [], [("u", ⟨0, "u", "/app/data/users/u"⟩)], 1⟩ =
      (.ok ⟨0, "u", "/app/data/users/u"⟩,
        ⟨3, [], [("u", ⟨0, "u", "/app/data/users/u"⟩)], 1⟩) :=
  acquire_returns_existing "/app" "u"
    ⟨3, [], [("u", ⟨0, "u", "/app/data/users/u"⟩)], 1⟩
    ⟨0, "u", "/app/data/users/u"⟩ (by decide)

/-! ## C10: release for a user with no checked-out engine -/

/-- C10: for every `userID` that has no checked-out engine, `release` is a
no-op for either value of `keep_alive`: the pool state (both the
checked-out map and the available list) is unchanged. -/
theorem release_unknown_user_noop (uid : String) (keep_alive : Bool)
    (now : Nat) (s : BrowserPool) (h : lookupKey uid s.in_use = none) :
    BrowserPool.release uid keep_alive now s = s := by
  unfold BrowserPool.release
  rw [h]

theorem release_unknown_user_noop_witness :
    BrowserPool.release "ghost" true 42
        ⟨3, [(⟨0, "u", "/app/data/users/u"⟩, 7)], [("u", ⟨0, "u", "/app/data/users/u"⟩)], 1⟩ =
      ⟨3, [(⟨0, "u", "/app/data/users/u"⟩, 7)], [("u", ⟨0, "u", "/app/data/users/u"⟩)], 1⟩ :=
  release_unknown_user_noop "ghost" true 42
    ⟨3, [(⟨0, "u", "/app/data/users/u"⟩, 7)], [("u", ⟨0, "u", "/app/data/users/u"⟩)], 1⟩
    (by decide)

/-! ## C3: publish deletes every task file on every exit path -/

theorem not_mem_deleteTaskFiles_of_not_mem {f : String} (files : List String)
    {fs : List String} (h : f ∉ fs) : f ∉ deleteTaskFiles files fs := by
  induction files generalizing fs with
  | nil => simpa [deleteTaskFiles]
  | cons g rest ih =>
    simp only [deleteTaskFiles, List.foldl_cons]
    apply ih
    by_cases hg : g ∈ fs
    · simp only [if_pos hg, osRemove]
      intro hmem
      exact h (List.mem_of_mem_filter hmem)
    · simpa [if_neg hg]

theorem not_mem_deleteTaskFiles_of_mem {f : String} {files : List String}
    (fs : List String) (h : f ∈ files) : f ∉ deleteTaskFiles files fs := by
  induction files generalizing fs with
  | nil => simp at h
  | cons g rest ih =>
    simp only [deleteTaskFiles, List.foldl_cons]
    rcases List.mem_cons.mp h with heq | hmem
    · subst heq
      apply not_mem_deleteTaskFiles_of_not_mem
      by_cases hg : f ∈ fs
      · simp only [if_pos hg, osRemove]
        intro hc
        simpa using (List.mem_filter.mp hc).2
      · simpa [if_neg hg]
    · exact ih _ hmem

/-- C3: `publish_content` removes every path of `task.files` from the local
filesystem on every exit path: for every environment (success or failure
alike), no task file is left in the filesystem it returns. -/
theorem publish_deletes_files (env : PublishEnv) (files fs : List String)
    (f : String) (h : f ∈ files) : f ∉ (publish_content env files fs).2 := by
  unfold publish_content
  exact not_mem_deleteTaskFiles_of_mem fs h

theorem publish_deletes_files_witness :
    ("/tmp/a.mp4" ∉
        (publish_content ⟨false, "https://creator.xiaohongshu.com/publish/publish", true, true⟩
          ["/tmp/a.mp4"] ["/tmp/a.mp4", "/tmp/b"]).2)
    ∧ ("/tmp/a.mp4" ∉
        (publish_content ⟨false, "https://creator.xiaohongshu.com/login", true, true⟩
          ["/tmp/a.mp4"] ["/tmp/a.mp4", "/tmp/b"]).2) :=
  ⟨publish_deletes_files ⟨false, "https://creator.xiaohongshu.com/publish/publish", true, true⟩
      ["/tmp/a.mp4"] ["/tmp/a.mp4", "/tmp/b"] "/tmp/a.mp4" (by decide),
    publish_deletes_files ⟨false, "https://creator.xiaohongshu.com/login", true, true⟩
      ["/tmp/a.mp4"] ["/tmp/a.mp4", "/tmp/b"] "/tmp/a.mp4" (by decide)⟩

/-! ## C6: the pool never tracks more than `max_size` engines -/

theorem poolStep_max (cwd : String) (s : BrowserPool) (op : PoolOp) :
    (poolStep cwd s op).max_size = s.max_size := by
  cases op <;>
    simp only [poolStep, BrowserPool.acquire, BrowserPool.release,
      BrowserPool.cleanup_idle, BrowserPool.close_all] <;>
    (repeat' split) <;> rfl

theorem runPoolOps_max (cwd : String) (ops : List PoolOp) (s : BrowserPool) :
    (runPoolOps cwd s ops).max_size = s.max_size := by
  induction ops generalizing s with
  | nil => rfl
  | cons op rest ih => rw [runPoolOps, ih, poolStep_max]

theorem poolStep_size (cwd : String) (s : BrowserPool) (op : PoolOp)
    (h : s.in_use.length + s.available.length ≤ s.max_size) :
    (poolStep cwd s op).in_use.length + (poolStep cwd s op).available.length ≤
      (poolStep cwd s op).max_size := by
  rw [poolStep_max]
  cases op with
  | acq uid =>
    simp only [poolStep]
    unfold BrowserPool.acquire
    cases hl : lookupKey uid s.in_use with
    | some m => simpa using h
    | none =>
      cases ha : s.available with
      | cons hd tl =>
        obtain ⟨m, t⟩ := hd
        rw [ha] at h
        simp at h ⊢
        omega
      | nil =>
        rw [ha] at h
        by_cases hlt : s.in_use.length < s.max_size
        · simp only [if_pos hlt]
          simp at h ⊢
          omega
        · simp only [if_neg hlt]
          rw [ha]
          simpa using h
  | rel uid k now =>
    simp only [poolStep]
    unfold BrowserPool.release
    cases hl : lookupKey uid s.in_use with
    | none => simpa using h
    | some m =>
      have hlen := removeKey_length_of_lookup hl
      by_cases hc : (k = true ∧ s.available.length < s.max_size)
      · simp only [if_pos hc]
        simp
        omega
      · simp only [if_neg hc]
        simp
        omega
  | cleanup t now =>
    simp only [poolStep, BrowserPool.cleanup_idle]
    have hf := List.length_filter_le (fun p : BrowserManager × Nat =>
      !(decide (t < now - p.2))) s.available
    simp at hf ⊢
    omega
  | closeAll =>
    simp [poolStep, BrowserPool.close_all]

theorem runPoolOps_size (cwd : String) (ops : List PoolOp) (s : BrowserPool)
    (h : s.in_use.length + s.available.length ≤ s.max_size) :
    (runPoolOps cwd s ops).in_use.length +
      (runPoolOps cwd s ops).available.length ≤ (runPoolOps cwd s ops).max_size := by
  induction ops generalizing s with
  | nil => simpa [runPoolOps]
  | cons op rest ih => exact ih _ (poolStep_size cwd s op h)

/-- C6: in every pool state reachable from a freshly constructed pool by any
sequence of acquire / release / cleanup_idle / close_all operations, the
number of checked-out engines plus the number of available engines never
exceeds `max_size`. -/
theorem pool_size_bounded (cwd : String) (max : Nat) (ops : List PoolOp) :
    (runPoolOps cwd (mkBrowserPool max) ops).in_use.length +
      (runPoolOps cwd (mkBrowserPool max) ops).available.length ≤ max := by
  have h1 := runPoolOps_size cwd ops (mkBrowserPool max) (by simp [mkBrowserPool])
  have h2 := runPoolOps_max cwd ops (mkBrowserPool max)
  rw [h2] at h1
  simpa [mkBrowserPool] using h1

/-! ## C1: profile directories are exclusive per user -/

theorem strAppend_assoc (a b c : String) : (a ++ b) ++ c = a ++ (b ++ c) :=
  strData_ext (by simp [strData_append])

theorem initUserDataDir_inj {cwd u v : String}
    (h : initUserDataDir cwd u = initUserDataDir cwd v) : u = v := by
  unfold initUserDataDir abspath at h
  exact strAppend_left_cancel (strAppend_left_cancel h)

theorem poolReboundDir_inj {u v : String}
    (h : poolReboundDir u = poolReboundDir v) : u = v :=
  strAppend_left_cancel h

theorem initUserDataDir_ne_poolReboundDir (r u v : String) :
    initUserDataDir ("/" ++ r) u ≠ poolReboundDir v := by
  intro h
  have hd := congrArg String.data h
  simp only [initUserDataDir, abspath, poolReboundDir, strData_append] at hd
  simp at hd

/-- Every checked-out engine's profile directory is the per-user directory
set either at construction or at warm rebind. -/
def DirInv (cwd : String) (s : BrowserPool) : Prop :=
  ∀ p ∈ s.in_use, p.2.user_data_dir = initUserDataDir cwd p.1 ∨
    p.2.user_data_dir = poolReboundDir p.1

theorem poolStep_dirInv (cwd : String) (s : BrowserPool) (op : PoolOp)
    (h : DirInv cwd s) : DirInv cwd (poolStep cwd s op) := by
  cases op with
  | acq uid =>
    simp only [poolStep]
    unfold BrowserPool.acquire
    cases hl : lookupKey uid s.in_use with
    | some m => exact h
    | none =>
      cases ha : s.available with
      | cons hd tl =>
        obtain ⟨m, t⟩ := hd
        intro p hp
        simp at hp
        rcases hp with hp | hp
        · rw [hp]
          right
          rfl
        · exact h p hp
      | nil =>
        by_cases hlt : s.in_use.length < s.max_size
        · simp only [if_pos hlt]
          intro p hp
          simp at hp
          rcases hp with hp | hp
          · rw [hp]
            left
            rfl
          · exact h p hp
        · simp only [if_neg hlt]
          exact h
  | rel uid k now =>
    simp only [poolStep]
    unfold BrowserPool.release
    cases hl : lookupKey uid s.in_use with
    | none => exact h
    | some m =>
      by_cases hc : (k = true ∧ s.available.length < s.max_size)
      · simp only [if_pos hc]
        intro p hp
        simp at hp
        exact h p (mem_removeKey hp)
      · simp only [if_neg hc]
        intro p hp
        simp at hp
        exact h p (mem_removeKey hp)
  | cleanup t now =>
    intro p hp
    simp only [poolStep, BrowserPool.cleanup_idle] at hp
    exact h p hp
  | closeAll =>
    intro p hp
    simp [poolStep, BrowserPool.close_all] at hp

theorem runPoolOps_dirInv (cwd : String) (ops : List PoolOp) (s : BrowserPool)
    (h : DirInv cwd s) : DirInv cwd (runPoolOps cwd s ops) := by
  induction ops generalizing s with
  | nil => exact h
  | cons op rest ih => exact ih _ (poolStep_dirInv cwd s op h)

/-- C1: in every reachable pool state (working directory absolute), two
concurrently checked-out engines of different users have different profile
directories — a warm engine rebound by `acquire` is re-pointed to a
directory exclusive to the new user. -/
theorem pool_profile_dir_exclusive (r : String) (max : Nat) (ops : List PoolOp)
    (u v : String) (e f : BrowserManager)
    (hu : (u, e) ∈ (runPoolOps ("/" ++ r) (mkBrowserPool max) ops).in_use)
    (hv : (v, f) ∈ (runPoolOps ("/" ++ r) (mkBrowserPool max) ops).in_use)
    (huv : u ≠ v) :
    e.user_data_dir ≠ f.user_data_dir := by
  have hinv := runPoolOps_dirInv ("/" ++ r) ops (mkBrowserPool max)
    (by intro p hp; simp [mkBrowserPool] at hp)
  have he := hinv (u, e) hu
  have hf := hinv (v, f) hv
  simp only at he hf
  intro heq
  rcases he with he | he <;> rcases hf with hf | hf
  · rw [he, hf] at heq
    exact huv (initUserDataDir_inj heq)
  · rw [he, hf] at heq
    exact initUserDataDir_ne_poolReboundDir r u v heq
  · rw [he, hf] at heq
    exact initUserDataDir_ne_poolReboundDir r v u heq.symm
  · rw [he, hf] at heq
    exact huv (poolReboundDir_inj heq)

theorem pool_profile_dir_exclusive_witness :
    (⟨0, "a", "/app/data/users/a"⟩ : BrowserManager).user_data_dir ≠
      (⟨1, "b", "/app/data/users/b"⟩ : BrowserManager).user_data_dir :=
  pool_profile_dir_exclusive "app" 3 [.acq "a", .acq "b"] "a" "b"
    ⟨0, "a", "/app/data/users/a"⟩ ⟨1, "b", "/app/data/users/b"⟩
    (by decide) (by decide) (by decide)

/-! ## C5: what the login status check requires -/

/-- C5 counterexample: a page whose URL is already in the creator area is
reported logged in although no `web_session` cookie marker is present, so
"LoggedIn only if the cookie marker is present and the confirmatory
navigation does not redirect" fails on the URL fast path. -/
theorem login_status_url_fastpath_counterexample :
    check_login_status
        (some ⟨"https://creator.xiaohongshu.com/creator/home", false, [], false, ""⟩) = true
    ∧ hasCookie
        ⟨"https://creator.xiaohongshu.com/creator/home", false, [], false, ""⟩
        "web_session" = false := by
  decide

/-- C5 (amended): when neither fast path applies (the URL is not already in
the creator area and the creator-page element is absent), the check reports
logged in exactly when the `web_session` cookie marker is present, the
confirmatory navigation does not raise, and it lands in the creator area;
in particular a present marker whose confirmatory navigation redirects to
login is reported as not logged in. -/
theorem login_status_cookie_confirmation (p : Page)
    (h1 : strContains p.url "creator/home" = false)
    (h2 : p.hasPublishNoteEle = false) :
    check_login_status (some p) = true ↔
      (hasCookie p "web_session" = true ∧ p.navRaises = false ∧
        strContains p.urlAfterHomeNav "creator/home" = true) := by
  by_cases h3 : hasCookie p "web_session" <;>
    by_cases h4 : p.navRaises <;>
      by_cases h5 : strContains p.urlAfterHomeNav "creator/home" <;>
        simp [check_login_status, h1, h2, h3, h4, h5]

theorem login_status_cookie_confirmation_witness :
    check_login_status
        (some ⟨"https://creator.xiaohongshu.com/login", false,
          [("web_session", "s")], false,
          "https://creator.xiaohongshu.com/creator/home"⟩) = true ↔
      (hasCookie
          ⟨"https://creator.xiaohongshu.com/login", false,
            [("web_session", "s")], false,
            "https://creator.xiaohongshu.com/creator/home"⟩ "web_session" = true
        ∧ (⟨"https://creator.xiaohongshu.com/login", false,
            [("web_session", "s")], false,
            "https://creator.xiaohongshu.com/creator/home"⟩ : Page).navRaises = false
        ∧ strContains
            (⟨"https://creator.xiaohongshu.com/login", false,
              [("web_session", "s")], false,
              "https://creator.xiaohongshu.com/creator/home"⟩ : Page).urlAfterHomeNav
            "creator/home" = true) :=
  login_status_cookie_confirmation
    ⟨"https://creator.xiaohongshu.com/login", false, [("web_session", "s")],
      false, "https://creator.xiaohongshu.com/creator/home"⟩
    (by decide) (by decide)

/-! ## C2: the poll endpoint has no TTL -/

/-- C2 counterexample: the polling endpoint is a function of the session map
alone — no clock or deadline is read. A poll made 91 seconds after the QR
request (marker still absent) answers `"waiting"`, and once the cookie
marker appears — however late — it answers `"success"`; no `Expired`-like
status exists on any input. -/
theorem poll_ttl_counterexample :
    (check_login_status_endpoint
        [("u", some ⟨"https://creator.xiaohongshu.com/login", false,
          [("a1", "x")], false, ""⟩)] "u").1 = .ok "waiting" none
    ∧ (check_login_status_endpoint
        [("u", some ⟨"https://creator.xiaohongshu.com/login", false,
          [("web_session", "sess")], false,
          "https://creator.xiaohongshu.com/creator/home"⟩)] "u").1 =
        .ok "success" (some [("web_session", "sess")])
    ∧ PollResp.statusOf (.ok "waiting" none) ≠ "expired"
    ∧ PollResp.statusOf (.ok "success" (some [("web_session", "sess")])) ≠ "expired" := by
  decide

/-- C2 (amended): the endpoint never reports an expired attempt: its status
is always `"not_found"`, `"success"` or `"waiting"`, and it is `"success"`
exactly when the user has a session whose login check passes — independent
of any elapsed time. -/
theorem poll_never_expired (sessions : List (String × Option Page)) (uid : String) :
    ((check_login_status_endpoint sessions uid).1.statusOf = "not_found"
      ∨ (check_login_status_endpoint sessions uid).1.statusOf = "success"
      ∨ (check_login_status_endpoint sessions uid).1.statusOf = "waiting")
    ∧ ((check_login_status_endpoint sessions uid).1.statusOf = "success" ↔
        ∃ p, lookupKey uid sessions = some p ∧ check_login_status p = true) := by
  have hnfs : ("not_found" : String) ≠ "success" := by decide
  have hws : ("waiting" : String) ≠ "success" := by decide
  unfold check_login_status_endpoint
  cases hl : lookupKey uid sessions with
  | none =>
    refine ⟨Or.inl rfl, ?_⟩
    constructor
    · intro h
      exact absurd h hnfs
    · rintro ⟨p, hp, -⟩
      cases hp
  | some pg =>
    dsimp only
    by_cases hc : check_login_status pg = true
    · rw [if_pos hc]
      cases hgc : get_cookies pg with
      | none =>
        exact ⟨Or.inr (Or.inl rfl), ⟨fun _ => ⟨pg, rfl, hc⟩, fun _ => rfl⟩⟩
      | some cs =>
        dsimp only
        by_cases he : cs.isEmpty
        · rw [if_pos he]
          exact ⟨Or.inr (Or.inl rfl), ⟨fun _ => ⟨pg, rfl, hc⟩, fun _ => rfl⟩⟩
        · rw [if_neg he]
          exact ⟨Or.inr (Or.inl rfl), ⟨fun _ => ⟨pg, rfl, hc⟩, fun _ => rfl⟩⟩
    · rw [if_neg hc]
      refine ⟨Or.inr (Or.inr rfl), ?_⟩
      constructor
      · intro h
        exact absurd h hws
      · rintro ⟨p, hp, hcp⟩
        cases hp
        exact absurd hcp hc

/-! ## C9: the no-QR fallback carries no degraded marker -/

/-- C9 counterexample: a page where no extraction strategy yields a
size-validated QR element produces exactly the same result record as a page
where the canvas strategy succeeds — status `"waiting_scan"`, no `note`:
the fallback carries no marker distinguishing it from a normal capture. -/
theorem degraded_capture_marker_counterexample :
    get_login_qrcode
        ⟨"https://creator.xiaohongshu.com/login", true, false,
          [], [], [], [], none, none, "IMG", some "E", "err"⟩ =
      get_login_qrcode
        ⟨"https://creator.xiaohongshu.com/login", true, false,
          [], [⟨100, 100, "IMG"⟩], [], [], none, none, "IMG", some "E", "err"⟩
    ∧ qr_box_detect
        ⟨"https://creator.xiaohongshu.com/login", true, false,
          [], [], [], [], none, none, "IMG", some "E", "err"⟩ = none
    ∧ qr_box_detect
        ⟨"https://creator.xiaohongshu.com/login", true, false,
          [], [⟨100, 100, "IMG"⟩], [], [], none, none, "IMG", some "E", "err"⟩ =
        some ⟨100, 100, "IMG"⟩
    ∧ (get_login_qrcode
        ⟨"https://creator.xiaohongshu.com/login", true, false,
          [], [], [], [], none, none, "IMG", some "E", "err"⟩).note = none
    ∧ (get_login_qrcode
        ⟨"https://creator.xiaohongshu.com/login", true, false,
          [], [], [], [], none, none, "IMG", some "E", "err"⟩).status =
        "waiting_scan" := by
  decide

/-- C9 (amended): whenever no extraction strategy yields a size-validated QR
element (and no exception occurs), `get_login_qrcode` still returns a
screenshot — the login box if one was located, else the full viewport —
with status `"waiting_scan"` and **no** degraded marker: the result is
indistinguishable from a normal cropped capture (only the exception-path
emergency fallback carries `note = "emergency_fallback"`). -/
theorem degraded_capture_no_marker (env : QrEnv)
    (h1 : env.driverRaises = false)
    (h2 : strContains env.url "creator/home" = false)
    (h3 : env.qrPresentQuickCheck = true)
    (h4 : strategy1_base64_img env.imgs = none)
    (h5 : qr_box_detect env = none) :
    get_login_qrcode env = ⟨"waiting_scan", some (fallbackShot env), none, none⟩ := by
  cases hb : env.loginBox with
  | none => simp [get_login_qrcode, fallbackShot, h1, h2, h3, h4, h5, hb]
  | some box => simp [get_login_qrcode, fallbackShot, h1, h2, h3, h4, h5, hb]

theorem degraded_capture_no_marker_witness :
    get_login_qrcode
        ⟨"https://creator.xiaohongshu.com/login", true, false,
          [], [], [], [], none, none, "IMG", some "E", "err"⟩ =
      ⟨"waiting_scan",
        some (fallbackShot
          ⟨"https://creator.xiaohongshu.com/login", true, false,
            [], [], [], [], none, none, "IMG", some "E", "err"⟩),
        none, none⟩ :=
  degraded_capture_no_marker
    ⟨"https://creator.xiaohongshu.com/login", true, false,
      [], [], [], [], none, none, "IMG", some "E", "err"⟩
    (by decide) (by decide) (by decide) (by decide) (by decide)

/-! ## C8: warm reuse after release -/

/-- C8 counterexample: a reachable state (max_size 3) where user `u2` holds
the only checked-out engine (id 1) and the available list has spare
capacity, yet also already holds an older warm engine (id 0): after
`release("u2", keep_alive=True)`, `acquire("u2")` pops the head of the
available list and returns the engine with id 0, not the released id 1. -/
theorem warm_reuse_identity_counterexample :
    (runPoolOps "/app" (mkBrowserPool 3)
        [.acq "u1", .acq "u2", .rel "u1" true 100]).in_use =
      [("u2", ⟨1, "u2", "/app/data/users/u2"⟩)]
    ∧ (runPoolOps "/app" (mkBrowserPool 3)
        [.acq "u1", .acq "u2", .rel "u1" true 100]).available.length <
      (runPoolOps "/app" (mkBrowserPool 3)
        [.acq "u1", .acq "u2", .rel "u1" true 100]).max_size
    ∧ (BrowserPool.acquire "/app" "u2"
        (BrowserPool.release "u2" true 200
          (runPoolOps "/app" (mkBrowserPool 3)
            [.acq "u1", .acq "u2", .rel "u1" true 100]))).1 =
        .ok ⟨0, "u2", "./user_data/u2"⟩
    ∧ (0 : Nat) ≠ 1 := by
  decide

/-- C8 (amended): when user `u` holds a checked-out engine `m`, the available
list is **empty** and the pool has positive capacity,
`release(u, keep_alive=True)` followed by `acquire(u)` returns the same
underlying engine (same identity, with `user_id` and profile directory
rebound to `u`), not a newly constructed one. -/
theorem warm_reuse_identity_empty_available (cwd u : String) (now : Nat)
    (s : BrowserPool) (m : BrowserManager)
    (hnd : (s.in_use.map Prod.fst).Nodup)
    (hm : lookupKey u s.in_use = some m)
    (hav : s.available = [])
    (hmax : 0 < s.max_size) :
    (BrowserPool.acquire cwd u (BrowserPool.release u true now s)).1 =
      .ok { m with user_id := u, user_data_dir := poolReboundDir u } := by
  unfold BrowserPool.release
  rw [hm]
  dsimp only
  have hcond : ((true : Bool) = true ∧ s.available.length < s.max_size) :=
    ⟨rfl, by rw [hav]; simpa using hmax⟩
  rw [if_pos hcond]
  unfold BrowserPool.acquire
  dsimp only
  rw [lookupKey_removeKey_self hnd, hav]
  rfl

theorem warm_reuse_identity_empty_available_witness :
    (BrowserPool.acquire "/app" "u"
        (BrowserPool.release "u" true 50
          ⟨3, [], [("u", ⟨5, "u", "/app/data/users/u"⟩)], 6⟩)).1 =
      .ok ⟨5, "u", "./user_data/u"⟩ :=
  warm_reuse_identity_empty_available "/app" "u" 50
    ⟨3, [], [("u", ⟨5, "u", "/app/data/users/u"⟩)], 6⟩
    ⟨5, "u", "/app/data/users/u"⟩
    (by decide) (by decide) (by decide) (by decide)

/-! ## C4: N distinct acquires against a fresh pool -/

theorem acquireSeq_fresh (cwd : String) (uids : List String) (s : BrowserPool)
    (hnd : uids.Nodup)
    (hav : s.available = [])
    (hlook : ∀ u ∈ uids, lookupKey u s.in_use = none)
    (hlen : s.in_use.length + uids.length ≤ s.max_size) :
    AcquireResult.exhausted ∉ (acquireSeq cwd uids s).1
    ∧ resultIds (acquireSeq cwd uids s).1 = List.range' s.nextId uids.length
    ∧ (acquireSeq cwd uids s).2.available = []
    ∧ (acquireSeq cwd uids s).2.in_use.length = s.in_use.length + uids.length
    ∧ (acquireSeq cwd uids s).2.max_size = s.max_size
    ∧ (∀ v, v ∉ uids →
        lookupKey v (acquireSeq cwd uids s).2.in_use = lookupKey v s.in_use) := by
  induction uids generalizing s with
  | nil =>
    refine ⟨?_, ?_, hav, ?_, rfl, ?_⟩ <;> simp [acquireSeq, resultIds]
  | cons u rest ih =>
    have hlu : lookupKey u s.in_use = none := hlook u (by simp)
    have hlt : s.in_use.length < s.max_size := by
      simp only [List.length_cons] at hlen
      omega
    have hstep : BrowserPool.acquire cwd u s =
        (.ok ⟨s.nextId, u, initUserDataDir cwd u⟩,
          { s with
            in_use := (u, ⟨s.nextId, u, initUserDataDir cwd u⟩) :: s.in_use,
            nextId := s.nextId + 1 }) := by
      unfold BrowserPool.acquire
      rw [hlu, hav]
      dsimp only
      rw [if_pos hlt]
    have hu_not : u ∉ rest := (List.nodup_cons.mp hnd).1
    have hnd' : rest.Nodup := (List.nodup_cons.mp hnd).2
    have hav' : ({ s with
        in_use := (u, (⟨s.nextId, u, initUserDataDir cwd u⟩ : BrowserManager)) :: s.in_use,
        nextId := s.nextId + 1 } : BrowserPool).available = [] := hav
    have hlook' : ∀ v ∈ rest,
        lookupKey v ({ s with
          in_use := (u, (⟨s.nextId, u, initUserDataDir cwd u⟩ : BrowserManager)) :: s.in_use,
          nextId := s.nextId + 1 } : BrowserPool).in_use = none := by
      intro v hv
      have hvu : ¬(u = v) := fun h => hu_not (h ▸ hv)
      simp only [lookupKey, if_neg hvu]
      exact hlook v (by simp [hv])
    have hlen' : ({ s with
        in_use := (u, (⟨s.nextId, u, initUserDataDir cwd u⟩ : BrowserManager)) :: s.in_use,
        nextId := s.nextId + 1 } : BrowserPool).in_use.length + rest.length ≤
        ({ s with
          in_use := (u, (⟨s.nextId, u, initUserDataDir cwd u⟩ : BrowserManager)) :: s.in_use,
          nextId := s.nextId + 1 } : BrowserPool).max_size := by
      simp only [List.length_cons] at hlen ⊢
      omega
    obtain ⟨i1, i2, i3, i4, i5, i6⟩ := ih _ hnd' hav' hlook' hlen'
    have e1 : (acquireSeq cwd (u :: rest) s).1 =
        .ok ⟨s.nextId, u, initUserDataDir cwd u⟩ ::
          (acquireSeq cwd rest { s with
            in_use := (u, ⟨s.nextId, u, initUserDataDir cwd u⟩) :: s.in_use,
            nextId := s.nextId + 1 }).1 := by
      simp only [acquireSeq, hstep]
    have e2 : (acquireSeq cwd (u :: rest) s).2 =
        (acquireSeq cwd rest { s with
          in_use := (u, ⟨s.nextId, u, initUserDataDir cwd u⟩) :: s.in_use,
          nextId := s.nextId + 1 }).2 := by
      simp only [acquireSeq, hstep]
    refine ⟨?_, ?_, ?_, ?_, ?_, ?_⟩
    · rw [e1]
      intro hmem
      rcases List.mem_cons.mp hmem with h | h
      · cases h
      · exact i1 h
    · rw [e1]
      simp only [resultIds, i2]
      simp only [List.length_cons]
      rw [List.range'_succ s.nextId rest.length 1]
    · rw [e2]
      exact i3
    · rw [e2, i4]
      simp only [List.length_cons]
      omega
    · rw [e2, i5]
    · intro v hv
      have hvu : ¬(u = v) := fun h => hv (by simp [h])
      have hvr : v ∉ rest := fun h => hv (by simp [h])
      rw [e2, i6 v hvr]
      simp only [lookupKey, if_neg hvu]

/-- C4 counterexample: the claim quantifies over every `N ≤ max_size` and
asserts the `(N+1)`-th distinct acquire fails; for `N = 1` against a fresh
pool of `max_size = 3`, the second acquire for a fresh user succeeds (a new
engine is constructed), it does not fail with the pool-exhausted error. -/
theorem acquire_extra_succeeds_counterexample :
    (BrowserPool.acquire "/app" "u1" (mkBrowserPool 3)).1 =
      .ok ⟨0, "u1", "/app/data/users/u1"⟩
    ∧ (BrowserPool.acquire "/app" "u2"
        (BrowserPool.acquire "/app" "u1" (mkBrowserPool 3)).2).1 =
        .ok ⟨1, "u2", "/app/data/users/u2"⟩
    ∧ (BrowserPool.acquire "/app" "u2"
        (BrowserPool.acquire "/app" "u1" (mkBrowserPool 3)).2).1 ≠
        .exhausted := by
  decide

/-- C4 (amended): for every `N ≤ max_size`, `N` acquires with
pairwise-distinct user ids against a fresh pool all succeed and return
pairwise-distinct engines; and when `N = max_size`, an `(N+1)`-th acquire
for yet another distinct user fails immediately with the pool-exhausted
error (the call returns, it does not block or queue). -/
theorem pool_acquire_distinct_and_exhausted (cwd : String) (max : Nat)
    (uids : List String) (v : String)
    (hnd : uids.Nodup) (hlen : uids.length ≤ max) :
    AcquireResult.exhausted ∉ (acquireSeq cwd uids (mkBrowserPool max)).1
    ∧ (resultIds (acquireSeq cwd uids (mkBrowserPool max)).1).Nodup
    ∧ (resultIds (acquireSeq cwd uids (mkBrowserPool max)).1).length = uids.length
    ∧ (uids.length = max → v ∉ uids →
        (BrowserPool.acquire cwd v (acquireSeq cwd uids (mkBrowserPool max)).2).1 =
          .exhausted) := by
  obtain ⟨i1, i2, i3, i4, i5, i6⟩ := acquireSeq_fresh cwd uids (mkBrowserPool max)
    hnd rfl (fun u _ => rfl) (by simpa [mkBrowserPool] using hlen)
  refine ⟨i1, ?_, ?_, ?_⟩
  · rw [i2]
    exact List.nodup_range' _ _
  · rw [i2]
    exact List.length_range' ..
  · intro hm hv
    have hl0 : lookupKey v (acquireSeq cwd uids (mkBrowserPool max)).2.in_use = none := by
      rw [i6 v hv]
      rfl
    have h4' : (acquireSeq cwd uids (mkBrowserPool max)).2.in_use.length = max := by
      rw [i4]
      simpa [mkBrowserPool] using hm
    unfold BrowserPool.acquire
    rw [hl0, i3]
    dsimp only
    rw [h4', i5]
    simp [mkBrowserPool]

theorem pool_acquire_distinct_and_exhausted_witness :
    AcquireResult.exhausted ∉ (acquireSeq "/app" ["a", "b"] (mkBrowserPool 2)).1
    ∧ (resultIds (acquireSeq "/app" ["a", "b"] (mkBrowserPool 2)).1).Nodup
    ∧ (resultIds (acquireSeq "/app" ["a", "b"] (mkBrowserPool 2)).1).length =
        (["a", "b"] : List String).length
    ∧ ((["a", "b"] : List String).length = 2 → "c" ∉ (["a", "b"] : List String) →
        (BrowserPool.acquire "/app" "c"
          (acquireSeq "/app" ["a", "b"] (mkBrowserPool 2)).2).1 = .exhausted) :=
  pool_acquire_distinct_and_exhausted "/app" 2 ["a", "b"] "c" (by decide) (by decide)
